import Mathlib

/-!
Verification development for the RAG chatbot core: shallow embedding of the
history validation, context assembly, chunk-id generation, document registry
and the upload/delete route logic, together with theorems about them.
-/

set_option maxHeartbeats 1000000

/-! ## Decimal rendering of numbers (embedding of JS template interpolation of a number) -/

/-- Character for a single decimal digit d, 0 ≤ d ≤ 9. -/
def digitChar (d : Nat) : Char := Char.ofNat (48 + d)

/-- Fuel-driven computation of the decimal digit list of a natural number,
most significant digit first. The fuel only bounds the recursion depth. -/
def natDecimalAux : Nat → Nat → List Char
  | 0, _ => []
  | fuel + 1, n =>
    if n < 10 then [digitChar n]
    else natDecimalAux fuel (n / 10) ++ [digitChar (n % 10)]

/-- Decimal digit list of a natural number, most significant first
(the rendering JS performs when a non-negative integer is interpolated into a string). -/
def natDecimal (n : Nat) : List Char := natDecimalAux (n + 1) n

/-- Decimal string of a natural number. -/
def natToString (n : Nat) : String := ⟨natDecimal n⟩

/-- Value of a decimal digit string, used to invert natDecimal. -/
def decVal (l : List Char) : Nat := l.foldl (fun a c => 10 * a + (c.toNat - 48)) 0

/-- Embedding of the JS String.prototype.trim: whitespace is stripped from both
ends of the string. (Lean.s own String.trim is implemented by well-founded
recursion and does not evaluate inside the kernel, so the JS semantics is
translated directly.) -/
def strTrim (s : String) : String :=
  ⟨((s.data.dropWhile Char.isWhitespace).reverse.dropWhile Char.isWhitespace).reverse⟩

/-! ## Conversation history validation (chain.ts, generateResponse lines 286-299) -/

/-- A raw conversation turn as received by the chat pipeline. -/
structure Turn where
  role : String
  content : String
deriving DecidableEq

/-- A normalized turn as sent to the Gemini chat API
(models the object with role and parts with a single text). -/
structure GTurn where
  role : String
  text : String
deriving DecidableEq

/-- Embedding of the validatedHistory computation in generateResponse:
map each turn role to user or model, wrap content, then filter out turns whose
content is empty or trims to empty. -/
def validatedHistory (conversationHistory : List Turn) : List GTurn :=
  (conversationHistory.map (fun msg =>
    { role := if msg.role == "user" then "user" else "model", text := msg.content })).filter
    (fun msg => msg.text != "" && strTrim msg.text != "")

/-- Embedding of the chatHistory computation in generateResponse: if the validated
history is non-empty and its first turn is not a user turn, drop that first turn
(a single slice, not a loop). -/
def chatHistory (conversationHistory : List Turn) : List GTurn :=
  match validatedHistory conversationHistory with
  | [] => []
  | m :: rest => if m.role != "user" then rest else m :: rest

/-- Number of leading non-user turns of a normalized history. -/
def leadingNonUser (v : List GTurn) : Nat :=
  (v.takeWhile (fun t => t.role != "user")).length

/-! ## Retrieved matches and context assembly (chain.ts, formatContext lines 162-182) -/

/-- A retrieved document chunk as produced by retrieveRelevantDocuments.
The relevance score is kept abstract (it is a floating-point number in the
source); formatContext only renders it through a formatting function. -/
structure RDoc (α : Type) where
  text : String
  source : String
  page : Nat
  score : α
deriving DecidableEq

/-- Exact embedding of the JS Array.prototype.join with a separator. -/
def joinSep (sep : String) : List String → String
  | [] => ""
  | [x] => x
  | x :: y :: xs => x ++ sep ++ joinSep sep (y :: xs)

/-- Rendering of one retrieved document inside formatContext, with the 1-based
document number. fmtScore models the (score * 100).toFixed(1) rendering. -/
def renderDoc (fmtScore : α → String) (n : Nat) (d : RDoc α) : String :=
  "Document " ++ natToString n ++ " (from " ++ d.source ++ ", page " ++ natToString d.page ++
    ", relevance: " ++ fmtScore d.score ++ "%):\n" ++ d.text

/-- Embedding of formatContext: the empty case returns the no-documents marker,
otherwise each document is rendered and the renderings are joined. -/
def formatContext (fmtScore : α → String) (documents : List (RDoc α)) : String :=
  if documents.length = 0 then "No relevant documents found."
  else joinSep "\n\n---\n\n" (documents.enum.map (fun p => renderDoc fmtScore (p.1 + 1) p.2))

/-! ## Chunk ids (document-processor.ts, generateChunkId lines 247-253) -/

/-- Embedding of generateChunkId: every character of the document name that is
not an ASCII letter or digit is replaced by an underscore, then the chunk suffix
and decimal index are appended. -/
def generateChunkId (documentName : String) (chunkIndex : Nat) : String :=
  ⟨documentName.data.map (fun c => if c.isAlphanum then c else '_')⟩ ++ "_chunk_" ++
    natToString chunkIndex

/-! ## Document registry (document-registry.ts, Prisma-backed version, lines 1-333)

document-registry.ts contains two concatenated revisions of the registry: the
current Prisma-backed one (its header states it is now backed by the Prisma
Document model instead of the in-memory registry) and the superseded legacy
in-memory one. The Prisma-backed revision is embedded here; where the delete
route calls a function whose two revisions differ in effect (clearRegistry),
the execution is parameterized over both semantics. -/

/-- Registry metadata for one document (the DocumentMetadata interface).
Timestamps are modelled as natural numbers (epoch milliseconds). -/
structure DocumentMetadata where
  documentId : String
  fileName : String
  uploadedAt : Nat
  ns : String
  totalChunks : Nat
  totalSize : Option Nat
  pages : Option Nat
  preview : Option String
  status : String
  processingTime : Option Nat
  embeddingModel : Option String
  keywords : List String
deriving DecidableEq

/-- A row of the Prisma Document table. -/
structure DbDoc where
  id : String
  userId : String
  documentId : String
  fileName : String
  fileSize : Nat
  fileType : String
  totalChunks : Nat
  pages : Option Nat
  storageUrl : String
  ns : String
  status : String
  embeddingModel : Option String
  keywords : List String
  preview : Option String
  processingTime : Option Nat
  uploadedAt : Nat
  vectorized : Bool
deriving DecidableEq

/-- Prisma update semantics for an optional data field: a present value
overwrites the stored column, an undefined value (none) is ignored by
prisma.document.update and the stored column is kept. -/
def prismaSetOpt (newVal old : Option α) : Option α :=
  match newVal with
  | none => old
  | some v => some v

/-- Embedding of registerDocument (Prisma-backed revision): insert-or-update by
documentId. The now argument models Date.now() for the fallback id; newRowId
models the database-generated primary key of a created row. The update branch
always sets status (to completed), keywords (made total by the || [] fallback)
and uploadedAt (a required field), writes embeddingModel, preview and
processingTime only when the metadata carries a value (Prisma ignores
undefined data fields), and leaves every other column (totalChunks included)
unchanged. -/
def registerDocument (tbl : List DbDoc) (metadata : DocumentMetadata) (userId : String)
    (now : Nat) (newRowId : String) : List DbDoc :=
  let documentId :=
    if metadata.documentId == "" then metadata.fileName ++ "-" ++ natToString now
    else metadata.documentId
  match tbl.find? (fun d => d.documentId == documentId) with
  | some _ =>
    tbl.map (fun d =>
      if d.documentId == documentId then
        { d with
          status := "completed"
          embeddingModel := prismaSetOpt metadata.embeddingModel d.embeddingModel
          keywords := metadata.keywords
          preview := prismaSetOpt metadata.preview d.preview
          processingTime := prismaSetOpt metadata.processingTime d.processingTime
          uploadedAt := metadata.uploadedAt }
      else d)
  | none =>
    tbl ++ [{
      id := newRowId
      userId := userId
      documentId := documentId
      fileName := metadata.fileName
      fileSize := metadata.totalSize.getD 0
      fileType := "pdf"
      totalChunks := metadata.totalChunks
      pages := metadata.pages
      storageUrl := ""
      ns := metadata.ns
      status := "completed"
      embeddingModel := metadata.embeddingModel
      keywords := metadata.keywords
      preview := metadata.preview
      processingTime := metadata.processingTime
      uploadedAt := metadata.uploadedAt
      vectorized := true }]

/-- The optional where-filters of the registry findMany and deleteMany calls;
a JS-falsy (empty) filter string disables the corresponding filter. -/
def matchesDocFilter (ns uid : Option String) (d : DbDoc) : Bool :=
  (match ns with
   | none => true
   | some s => if s == "" then true else d.ns == s) &&
  (match uid with
   | none => true
   | some u => if u == "" then true else d.userId == u)

/-- Descending order on uploadedAt, the orderBy of the registry findMany. -/
def byUploadedAtDesc (a b : DbDoc) : Prop := b.uploadedAt ≤ a.uploadedAt

instance : DecidableRel byUploadedAtDesc := fun a b => Nat.decLe b.uploadedAt a.uploadedAt

instance : IsTotal DbDoc byUploadedAtDesc := ⟨fun a b => Nat.le_total b.uploadedAt a.uploadedAt⟩

instance : IsTrans DbDoc byUploadedAtDesc := ⟨fun _ _ _ hab hbc => Nat.le_trans hbc hab⟩

/-- Embedding of the prisma.document.findMany call of getAllDocuments: filter by
the optional namespace and userId, ordered by uploadedAt descending. -/
def findManyDocuments (tbl : List DbDoc) (ns uid : Option String) : List DbDoc :=
  List.insertionSort byUploadedAtDesc (tbl.filter (matchesDocFilter ns uid))

/-- Row-to-metadata mapping performed by getAllDocuments, with the JS
falsy-coalescing of the optional columns. -/
def docToMetadata (doc : DbDoc) : DocumentMetadata :=
  { documentId := doc.documentId
    fileName := doc.fileName
    uploadedAt := doc.uploadedAt
    ns := doc.ns
    totalChunks := doc.totalChunks
    totalSize := some doc.fileSize
    pages := doc.pages.bind (fun p => if p == 0 then none else some p)
    preview := doc.preview.bind (fun p => if p == "" then none else some p)
    status := if doc.status == "" then "completed" else doc.status
    processingTime := doc.processingTime.bind (fun p => if p == 0 then none else some p)
    embeddingModel := doc.embeddingModel.bind (fun m => if m == "" then none else some m)
    keywords := doc.keywords }

/-- Embedding of getAllDocuments (Prisma-backed revision). -/
def getAllDocuments (tbl : List DbDoc) (ns uid : Option String) : List DocumentMetadata :=
  (findManyDocuments tbl ns uid).map docToMetadata

/-- Embedding of clearRegistry (Prisma-backed revision): prisma.document.deleteMany
with the optional namespace and userId filters. -/
def clearRegistry (tbl : List DbDoc) (ns uid : Option String) : List DbDoc :=
  tbl.filter (fun d => !(matchesDocFilter ns uid d))

/-! ## Vector index state and the delete route (api/documents/[id]/route.ts) -/

/-- A vector record stored in the index, with the metadata fields the delete
and upload paths depend on. The embedding values are kept abstract. -/
structure PineRec (V : Type) where
  id : String
  values : V
  documentId : String
  userId : String
  chunkIndex : Nat
  page : Nat
  text : String
  source : String
deriving DecidableEq

/-- A row of the Prisma DocumentChunk table. -/
structure ChunkRow where
  documentId : String
  chunkIndex : Nat
  text : String
  page : Option Nat
deriving DecidableEq

/-- The persistent state the routes operate on: the vector index (one namespace
to one record list) and the two Prisma tables. -/
structure AppSt (V : Type) where
  pinecone : List (String × PineRec V)
  documents : List DbDoc
  chunks : List ChunkRow
deriving DecidableEq

/-- Embedding of getUserNamespace (auth.ts). -/
def getUserNamespace (userId : String) : String := "user_" ++ userId

/-- Modelled from the spec: deleteVectorsForDocument is imported by the delete
route from the vector-index client module, but its definition is not among the
source files. Section 4.3 of the spec defines deleteByDocument(namespace,
documentId) as deleting every record whose metadata documentId matches, inside
the given namespace. -/
def deleteVectorsForDocument (pinecone : List (String × PineRec V)) (documentId ns : String) :
    List (String × PineRec V) :=
  pinecone.filter (fun p => !(p.1 == ns && p.2.documentId == documentId))

/-- One observable step of the delete route, in execution order; the Bool on the
external calls records whether that call failed (both failures are caught). -/
inductive DelStep where
  | vectorDelete (documentId ns : String) (failed : Bool)
  | chunkDelete (documentId : String)
  | registryDelete (id : String)
  | clearRegistryCache
  | resync (ns : String) (failed : Bool)
deriving DecidableEq

/-- Embedding of the DELETE handler of api/documents/[id]/route.ts for an
authenticated user: look the document up by primary key and check ownership;
try to delete its vectors (failure caught and ignored); delete its chunk rows;
delete the registry row; call clearRegistry and then syncRegistryWithPinecone
(failure caught and ignored). vFail and sFail say whether the two fallible
external calls fail. legacyClear selects which of the two clearRegistry
revisions concatenated in document-registry.ts is linked: the legacy in-memory
one only clears a cache map (no table effect), the Prisma-backed one is
deleteMany with no filters. Returns the new state, the step trace and the HTTP
status. -/
def deleteRoute (st : AppSt V) (docId userId : String) (vFail sFail legacyClear : Bool) :
    AppSt V × List DelStep × Nat :=
  match st.documents.find? (fun d => d.id == docId) with
  | none => (st, [], 404)
  | some doc =>
    if doc.userId != userId then (st, [], 404)
    else
      let ns := getUserNamespace userId
      let st1 :=
        if vFail then st
        else { st with pinecone := deleteVectorsForDocument st.pinecone docId ns }
      let st2 := { st1 with chunks := st1.chunks.filter (fun c => !(c.documentId == docId)) }
      let st3 := { st2 with documents := st2.documents.filter (fun d => !(d.id == docId)) }
      let st4 :=
        if legacyClear then st3
        else { st3 with documents := clearRegistry st3.documents none none }
      (st4,
       [DelStep.vectorDelete docId ns vFail, DelStep.chunkDelete docId,
        DelStep.registryDelete docId, DelStep.clearRegistryCache, DelStep.resync ns sFail],
       200)

/-- Recognizer for the registry-deletion step. -/
def isRegDel : DelStep → Bool
  | DelStep.registryDelete _ => true
  | _ => false

/-- Recognizer for the vector-index deletion step. -/
def isVecDel : DelStep → Bool
  | DelStep.vectorDelete _ _ _ => true
  | _ => false

/-- The ordering property C2 asserts of the delete route: every registry
deletion step comes before every vector-index deletion step of the trace. -/
def regPrecedesVec (tr : List DelStep) : Prop :=
  ∀ i j, (hi : i < tr.length) → (hj : j < tr.length) →
    isRegDel (tr.get ⟨i, hi⟩) = true → isVecDel (tr.get ⟨j, hj⟩) = true → i < j

/-! ## Upload route (api/upload-document/route.ts, POST steps 4-6) -/

/-- A processed PDF chunk as handed to the upload route: its text and the page
number found at metadata.loc.pageNumber, when present. -/
structure Chunk where
  pageContent : String
  pageNumber : Option Nat
deriving DecidableEq

/-- The JS expression (x || 1) applied to an optional page number: undefined and
0 both fall back to 1. -/
def jsOrOne : Option Nat → Nat
  | some p => if p == 0 then 1 else p
  | none => 1

/-- Embedding of the JS String.prototype.substring(0, n). -/
def strTake (s : String) (n : Nat) : String := ⟨s.data.take n⟩

/-- Default chunk used to model an out-of-range JS index access; the theorems
about the upload route assume the embedding-client contract that the vector
list has the same length as the chunk list, under which it is never used. -/
def emptyChunk : Chunk := { pageContent := "", pageNumber := none }

/-- Embedding of step 5 of the upload POST handler: the vector records built
from the embeddings, one per embedding vector in order; the i-th record gets
id dbId_chunk_i and metadata documentId, userId, chunkIndex, page, text, source. -/
def vectorsToUpsert (dbId userId documentName : String) (chunks : List Chunk)
    (vectors : List V) : List (PineRec V) :=
  vectors.enum.map (fun p =>
    { id := dbId ++ "_chunk_" ++ natToString p.1
      values := p.2
      documentId := dbId
      userId := userId
      chunkIndex := p.1
      page := jsOrOne (chunks.getD p.1 emptyChunk).pageNumber
      text := (chunks.getD p.1 emptyChunk).pageContent
      source := documentName })

/-- Embedding of step 4 of the upload POST handler: the Prisma Document row
created for the upload (description and tags columns omitted). -/
def uploadDbDocument (rowId userId documentName fileUrl ns : String) (now : Nat)
    (chunks : List Chunk) : DbDoc :=
  { id := rowId
    userId := userId
    documentId := documentName ++ "-" ++ natToString now
    fileName := documentName
    fileSize := 0
    fileType := "pdf"
    totalChunks := chunks.length
    pages := some (jsOrOne (chunks.getD (chunks.length - 1) emptyChunk).pageNumber)
    storageUrl := fileUrl
    ns := ns
    status := "completed"
    embeddingModel := some ("gemini-2.5")
    keywords := []
    preview := strTake (match chunks.head? with | some c => c.pageContent | none => "") 200
    processingTime := none
    uploadedAt := now
    vectorized := true }

/-! ## Generation orchestrator (chain.ts, generateResponse lines 213-323) -/

/-- The system prompt of chain.ts, reproduced verbatim. -/
def SYSTEM_PROMPT : String :=
  "You are an expert AI assistant specialized in document analysis and retrieval-augmented generation (RAG).\n\n**Your Core Responsibilities:**\n1. Answer user questions ONLY based on the provided document context\n2. Be accurate, precise, and evidence-based in all responses\n3. Always cite page number when referencing information\n4. Maintain professional, clear, and helpful communication\n\n**Available Resources:**\n- Multiple documents with metadata (source name, page number, relevance score)\n- Conversation history for context\n- User\x27s current question\n\n**Response Decision Logic:**\n- If the question is too vague or general, ask the user to clarify what they want to know\n- If multiple documents are available, let the user know and offer to focus on specific documents\n- If you have enough context to answer, provide a detailed, evidence-based response\n- Always decide the best way to respond based on the question clarity and available information\n\n**Guidelines:**\n- If information is not in the provided context, clearly state: \"This information is not available in the provided documents.\"\n- When referencing multiple documents, clearly distinguish between them\n- Provide direct quotes from documents when answering factual questions\n- Organize complex answers with clear sections and bullet points\n- Highlight key findings, statistics, and important data from documents\n- If asked about topics outside the documents, politely redirect to document content\n- Use your judgment to ask clarifying questions when needed\n\n**Response Format:**\n- Start with a direct answer or clarification request\n- Support your answer with specific document references\n- Use page numbers, and section titles when available\n- Provide context and explanation for technical or complex information\n- End with relevant follow-up suggestions if applicable\n\n**Quality Standards:**\n- Accuracy > Completeness: Better to partially answer correctly than fully answer incorrectly\n- Be concise but informative - avoid unnecessary verbosity\n- Use professional language while remaining accessible\n- Cross-reference information when multiple documents contain related content"

/-- Embedding of formatConversationContext. -/
def formatConversationContext (conversationHistory : List Turn) : String :=
  if conversationHistory.length = 0 then ""
  else "\n\nPrevious conversation context:\n" ++
    joinSep "\n" (conversationHistory.map (fun msg =>
      (if msg.role == "user" then "User" else "Assistant") ++ ": " ++ msg.content))

/-- Lower-cased character list of a string, for the case-insensitive regexes. -/
def toLowerData (s : String) : List Char := s.data.map Char.toLower

/-- Remainder of the character list after the first occurrence of a segment. -/
def dropAfterSeg (seg : List Char) : List Char → Option (List Char)
  | [] => if seg.isEmpty then some [] else none
  | c :: rest =>
    if seg.isPrefixOf (c :: rest) then some ((c :: rest).drop seg.length)
    else dropAfterSeg seg rest

/-- A regex of the shape a.*b.*c (as used by isDocumentInventoryQuery) matches
iff its literal segments occur in order. -/
def matchSegs : List (List Char) → List Char → Bool
  | [], _ => true
  | seg :: rest, s =>
    match dropAfterSeg seg s with
    | none => false
    | some s2 => matchSegs rest s2

/-- The literal segments of the twelve case-insensitive patterns of
isDocumentInventoryQuery, in source order. -/
def invPatterns : List (List String) :=
  [["what", "document"], ["list", "document"], ["available", "document"],
   ["which", "document"], ["how", "many", "document"], ["show", "document"],
   ["catalog"], ["inventory"], ["what", "pdf"], ["what", "file"],
   ["all", "document"], ["total", "document"]]

/-- Embedding of isDocumentInventoryQuery: some pattern matches the query,
case-insensitively. -/
def isDocumentInventoryQuery (query : String) : Bool :=
  invPatterns.any (fun pat => matchSegs (pat.map String.data) (toLowerData query))

/-- Statistics as produced by getDocumentStats and consumed by the catalog
section of the prompt; the average is a string because the source renders it
with toFixed(1) (floating point). -/
structure Stats where
  totalDocuments : Nat
  totalChunks : Nat
  totalPages : Nat
  totalSize : Nat
  averageChunksPerDocument : String
deriving DecidableEq

/-- One document entry of formatDocumentsForDisplay, with its 0-based index.
fmtDate models new Date(uploadedAt).toLocaleDateString(). -/
def renderCatalogDoc (fmtDate : Nat → String) (i : Nat) (doc : DocumentMetadata) : String :=
  natToString (i + 1) ++ ". **" ++ doc.fileName ++ "**\n" ++
  "   📄 Chunks: " ++ natToString doc.totalChunks ++
  (match doc.pages with
   | some p => if p == 0 then "" else " | 📖 Pages: " ++ natToString p
   | none => "") ++ "\n" ++
  "   📅 Uploaded: " ++ fmtDate doc.uploadedAt ++ "\n" ++
  (match doc.preview with
   | some pv => if pv == "" then "" else "   📝 Preview: " ++ strTake pv 100 ++ "...\n"
   | none => "") ++ "\n"

/-- Embedding of formatDocumentsForDisplay. -/
def formatDocumentsForDisplay (fmtDate : Nat → String) (documents : List DocumentMetadata) :
    String :=
  if documents.length = 0 then "No documents available at this time."
  else "📚 **Document Catalog** (" ++ natToString documents.length ++ " documents available)\n\n"
    ++ String.join (documents.enum.map (fun p => renderCatalogDoc fmtDate p.1 p.2))

/-- First-occurrence deduplication, the embedding of Array.from(new Set(xs)). -/
def dedupFirstAux : List String → List String → List String
  | _, [] => []
  | seen, a :: l =>
    if seen.contains a then dedupFirstAux seen l else a :: dedupFirstAux (a :: seen) l

/-- First-occurrence deduplication of a string list. -/
def dedupFirst (l : List String) : List String := dedupFirstAux [] l

/-- The closing instruction block of the full prompt; its last item depends on
the document-inventory classification of the query. -/
def closingInstructions (isDocQuery : Bool) : String :=
  "Now, please respond appropriately based on the question clarity and available resources. Use your judgment to either:\n1. Answer the question directly with evidence from documents\n2. Ask for clarification if the question is too vague\n3. Offer to focus on specific documents if multiple are available\n4. " ++
  (if isDocQuery then "Provide a comprehensive list of all available documents with their details"
   else "Suggest more specific questions if needed")

/-- Embedding of generateResponse. The two registry reads inside its inner
try-catch are modelled by the catE and statsE arguments (their failure is the
failure of getAllDocuments or getDocumentStats); the Gemini call is the send
argument, given the validated chat history and the full prompt; its failure
(and only it) propagates out of the function. -/
def generateResponseE (query context : String) (conversationHistory : List Turn)
    (retrievedDocs : List (RDoc α)) (fmtDate : Nat → String)
    (catE : Except String (List DocumentMetadata)) (statsE : Except String Stats)
    (send : List GTurn → String → Except String String) : Except String String :=
  let conversationContext := formatConversationContext conversationHistory
  let isDocQuery := isDocumentInventoryQuery query
  let documentCatalog :=
    match catE, statsE with
    | Except.ok allDocuments, Except.ok stats =>
      if allDocuments.length > 0 then
        "\n**Global Document Catalog:**\n" ++ formatDocumentsForDisplay fmtDate allDocuments ++
        "\n**Catalog Statistics:**\n" ++
        "- Total Documents: " ++ natToString stats.totalDocuments ++ "\n" ++
        "- Total Chunks: " ++ natToString stats.totalChunks ++ "\n" ++
        "- Total Pages: " ++ natToString stats.totalPages ++ "\n" ++
        "- Average Chunks per Document: " ++ stats.averageChunksPerDocument ++ "\n\n"
      else ""
    | _, _ => ""
  let sources := dedupFirst (retrievedDocs.map (fun d => d.source))
  let retrievedSummary :=
    if sources.length > 0 then
      "\n**Retrieved Context for Current Query:**\n- Sources Found: " ++
        joinSep ", " sources ++ "\n- Chunks Retrieved: " ++
        natToString retrievedDocs.length ++ "\n"
    else "\n**Retrieved Context for Current Query:**\n- No specific documents matched this query\n"
  let fullMessage := SYSTEM_PROMPT ++ "\n\n" ++ documentCatalog ++ "\n" ++ retrievedSummary ++
    "\n**Retrieved Content:**\n" ++ context ++ "\n\n" ++ conversationContext ++
    "\n\n**User Question:**\n" ++ query ++ "\n\n" ++ closingInstructions isDocQuery
  send (chatHistory conversationHistory) fullMessage

/-- Embedding of ragPipeline: retrieval, then context formatting, then
generation; a failure of either external stage aborts the pipeline. -/
def ragPipelineE (query : String) (conversationHistory : List Turn)
    (fmtScore : α → String) (fmtDate : Nat → String)
    (retrieveE : Except String (List (RDoc α)))
    (catE : Except String (List DocumentMetadata)) (statsE : Except String Stats)
    (send : List GTurn → String → Except String String) :
    Except String (String × List (RDoc α) × String) :=
  match retrieveE with
  | Except.error e => Except.error e
  | Except.ok retrievedDocs =>
    let context := formatContext fmtScore retrievedDocs
    match generateResponseE query context conversationHistory retrievedDocs fmtDate catE statsE
        send with
    | Except.error e => Except.error e
    | Except.ok response => Except.ok (response, retrievedDocs, context)

/-! ## Concrete example inputs used by counterexamples and witnesses -/

/-- The history of the C1 counterexample: two leading assistant turns. -/
def c1hist : List Turn := [⟨"assistant", "a"⟩, ⟨"assistant", "b"⟩, ⟨"user", "c"⟩]


/-- First registration of the C4 counterexample: 3 chunks. -/
def c4meta1 : DocumentMetadata :=
  { documentId := "doc-1", fileName := "a.pdf", uploadedAt := 10, ns := "user_u1",
    totalChunks := 3, totalSize := none, pages := some 2, preview := some ("intro"),
    status := "completed", processingTime := none, embeddingModel := none, keywords := [] }

/-- Second registration of the C4 counterexample: same documentId, 5 chunks,
no preview carried (the update must keep the stored one). -/
def c4meta2 : DocumentMetadata :=
  { c4meta1 with totalChunks := 5, uploadedAt := 20, preview := none }

/-- The registry table after registering c4meta1 and then c4meta2. -/
def c4tbl : List DbDoc :=
  registerDocument (registerDocument [] c4meta1 ("u1") 100 ("row1")) c4meta2 ("u1") 200 ("row2")

/-- A registry row for the delete-route examples: document row1 owned by u1. -/
def exDoc : DbDoc :=
  { id := "row1", userId := "u1", documentId := "doc-1", fileName := "a.pdf", fileSize := 10,
    fileType := "pdf", totalChunks := 1, pages := some 1, storageUrl := "", ns := "user_u1",
    status := "completed", embeddingModel := none, keywords := [], preview := none,
    processingTime := none, uploadedAt := 5, vectorized := true }

/-- A concrete application state holding exDoc, one vector and one chunk row. -/
def exSt : AppSt Nat :=
  { pinecone := [(("user_u1"),
      { id := "row1_chunk_0", values := 0, documentId := "row1", userId := "u1",
        chunkIndex := 0, page := 1, text := "t", source := "a.pdf" })],
    documents := [exDoc],
    chunks := [{ documentId := "row1", chunkIndex := 0, text := "t", page := some 1 }] }

/-- Concrete chunk list for the C10 witness. -/
def c10chunks : List Chunk :=
  [{ pageContent := "alpha", pageNumber := some 1 }, { pageContent := "beta", pageNumber := some 2 }]

/-- Concrete embedding list for the C10 witness. -/
def c10vectors : List Nat := [10, 20]

/-! ## Helper lemmas: decimal rendering -/

theorem digitChar_toNat (d : Nat) (h : d < 10) : (digitChar d).toNat = 48 + d := by
  interval_cases d <;> decide

theorem digitChar_isDigit (d : Nat) (h : d < 10) : (digitChar d).isDigit = true := by
  interval_cases d <;> decide

theorem isAlphanum_of_isDigit (c : Char) (h : c.isDigit = true) : c.isAlphanum = true := by
  simp [Char.isAlphanum, h]

theorem decVal_append_singleton (l : List Char) (c : Char) :
    decVal (l ++ [c]) = 10 * decVal l + (c.toNat - 48) := by
  simp [decVal, List.foldl_append]

theorem decVal_natDecimalAux (fuel : Nat) :
    ∀ n, n < fuel → decVal (natDecimalAux fuel n) = n := by
  induction fuel with
  | zero => intro n h; omega
  | succ fuel ih =>
    intro n _
    rw [natDecimalAux]
    by_cases h10 : n < 10
    · rw [if_pos h10]
      have : decVal [digitChar n] = 10 * 0 + ((digitChar n).toNat - 48) := rfl
      rw [this, digitChar_toNat n h10]
      omega
    · rw [if_neg h10]
      have hdiv : n / 10 < n := Nat.div_lt_self (by omega) (by norm_num)
      rw [decVal_append_singleton, ih (n / 10) (by omega),
        digitChar_toNat (n % 10) (Nat.mod_lt n (by norm_num))]
      omega

theorem decVal_natDecimal (n : Nat) : decVal (natDecimal n) = n :=
  decVal_natDecimalAux (n + 1) n (Nat.lt_succ_self n)

theorem natDecimal_inj {m n : Nat} (h : natDecimal m = natDecimal n) : m = n := by
  have hm := decVal_natDecimal m
  rw [h, decVal_natDecimal] at hm
  omega

theorem natToString_inj {m n : Nat} (h : natToString m = natToString n) : m = n := by
  apply natDecimal_inj
  have := congrArg String.data h
  simpa [natToString] using this

theorem natDecimalAux_digits (fuel : Nat) :
    ∀ n c, c ∈ natDecimalAux fuel n → c.isDigit = true := by
  induction fuel with
  | zero => intro n c hc; simp [natDecimalAux] at hc
  | succ fuel ih =>
    intro n c hc
    rw [natDecimalAux] at hc
    by_cases h10 : n < 10
    · rw [if_pos h10] at hc
      simp at hc
      subst hc
      exact digitChar_isDigit n h10
    · rw [if_neg h10] at hc
      rcases List.mem_append.mp hc with h1 | h2
      · exact ih _ _ h1
      · simp at h2
        subst h2
        exact digitChar_isDigit _ (Nat.mod_lt n (by norm_num))

theorem natToString_digits (n : Nat) : ∀ c ∈ (natToString n).data, c.isDigit = true := by
  intro c hc
  exact natDecimalAux_digits (n + 1) n c hc

/-! ## Helper lemmas: substrings of joined renderings -/

theorem joinSep_contains_mem (sep : String) (l : List String) (x : String) (hx : x ∈ l) :
    x.data <:+: (joinSep sep l).data := by
  induction l with
  | nil => simp at hx
  | cons y ys ih =>
    cases ys with
    | nil =>
      simp at hx
      subst hx
      exact List.infix_refl _
    | cons z zs =>
      rcases List.mem_cons.mp hx with h | h
      · subst h
        refine List.IsPrefix.isInfix ?_
        show x.data <+: (x ++ sep ++ joinSep sep (z :: zs)).data
        refine ⟨sep.data ++ (joinSep sep (z :: zs)).data, ?_⟩
        simp [String.data_append]
      · have hmid := ih h
        refine hmid.trans ?_
        show (joinSep sep (z :: zs)).data <:+: (y ++ sep ++ joinSep sep (z :: zs)).data
        refine List.IsSuffix.isInfix ?_
        refine ⟨(y ++ sep).data, ?_⟩
        simp [String.data_append]

theorem renderDoc_has_source (f : α → String) (n : Nat) (d : RDoc α) :
    d.source.data <:+: (renderDoc f n d).data := by
  refine ⟨("Document " ++ natToString n ++ " (from ").data,
    (", page " ++ natToString d.page ++ ", relevance: " ++ f d.score ++ "%):\n" ++ d.text).data,
    ?_⟩
  simp [renderDoc, String.data_append]

theorem renderDoc_has_page (f : α → String) (n : Nat) (d : RDoc α) :
    (natToString d.page).data <:+: (renderDoc f n d).data := by
  refine ⟨("Document " ++ natToString n ++ " (from " ++ d.source ++ ", page ").data,
    (", relevance: " ++ f d.score ++ "%):\n" ++ d.text).data, ?_⟩
  simp [renderDoc, String.data_append]

theorem renderDoc_mem_rendered (f : α → String) (documents : List (RDoc α)) (d : RDoc α)
    (hd : d ∈ documents) :
    ∃ n, renderDoc f n d ∈ documents.enum.map (fun p => renderDoc f (p.1 + 1) p.2) := by
  rcases List.mem_iff_get.mp hd with ⟨⟨i, hi⟩, rfl⟩
  refine ⟨i + 1, ?_⟩
  have hmem : (i, documents.get ⟨i, hi⟩) ∈ documents.enum := by
    have hlen : i < documents.enum.length := by simpa using hi
    have hmm : documents.enum[i] ∈ documents.enum := List.getElem_mem hlen
    rwa [List.getElem_enum] at hmm
  simpa using List.mem_map_of_mem (fun p => renderDoc f (p.1 + 1) p.2) hmem

theorem sanitize_eq_of_zip {l₁ l₂ : List Char} (hlen : l₁.length = l₂.length)
    (h : ∀ p ∈ l₁.zip l₂, p.1 = p.2 ∨ (p.1.isAlphanum = false ∧ p.2.isAlphanum = false)) :
    l₁.map (fun c => if c.isAlphanum then c else '_') =
      l₂.map (fun c => if c.isAlphanum then c else '_') := by
  induction l₁ generalizing l₂ with
  | nil =>
    cases l₂ with
    | nil => rfl
    | cons b l₂ => simp at hlen
  | cons a l ih =>
    cases l₂ with
    | nil => simp at hlen
    | cons b l₂ =>
      simp only [List.map_cons, List.cons.injEq]
      constructor
      · rcases h (a, b) (by simp [List.zip_cons_cons]) with hab | ⟨ha, hb⟩
        · simp at hab
          rw [hab]
        · simp at ha hb
          rw [if_neg (by simp [ha]), if_neg (by simp [hb])]
      · refine ih (by simpa using hlen) ?_
        intro p hp
        exact h p (by simp [List.zip_cons_cons, hp])

/-! ## C7: empty match sequence yields the no-documents marker -/

/-- C7: for every empty match sequence, formatContext returns the literal
no-relevant-documents marker, never the empty string. -/
theorem C7_formatContext_empty_marker (f : α → String) :
    formatContext f ([] : List (RDoc α)) = "No relevant documents found." ∧
    formatContext f ([] : List (RDoc α)) ≠ "" := by
  refine ⟨rfl, ?_⟩
  intro h
  have hmarker : ("No relevant documents found." : String) = "" := h
  exact absurd hmarker (by decide)

/-! ## C8: non-empty match sequences render every source and page -/

/-- C8: for every non-empty match sequence, formatContext is the join of the
per-match renderings, and it contains every match.s source and decimal page as
substrings. -/
theorem C8_formatContext_contains (f : α → String) (documents : List (RDoc α))
    (hne : documents ≠ []) :
    formatContext f documents =
      joinSep "\n\n---\n\n" (documents.enum.map (fun p => renderDoc f (p.1 + 1) p.2)) ∧
    ∀ d ∈ documents, d.source.data <:+: (formatContext f documents).data ∧
      (natToString d.page).data <:+: (formatContext f documents).data := by
  have hlen : documents.length ≠ 0 := fun h => hne (List.length_eq_zero.mp h)
  have heq : formatContext f documents =
      joinSep "\n\n---\n\n" (documents.enum.map (fun p => renderDoc f (p.1 + 1) p.2)) := by
    simp only [formatContext, if_neg hlen]
  refine ⟨heq, ?_⟩
  intro d hd
  rcases renderDoc_mem_rendered f documents d hd with ⟨n, hn⟩
  have hjoin : (renderDoc f n d).data <:+:
      (joinSep "\n\n---\n\n" (documents.enum.map (fun p => renderDoc f (p.1 + 1) p.2))).data :=
    joinSep_contains_mem _ _ _ hn
  rw [heq]
  exact ⟨(renderDoc_has_source f n d).trans hjoin, (renderDoc_has_page f n d).trans hjoin⟩

/-- C8 witness: the theorem applied at a concrete one-element match list. -/
theorem C8_witness :
    formatContext natToString [({ text := "hello", source := "a.pdf", page := 3, score := 95 } :
        RDoc Nat)] =
      joinSep "\n\n---\n\n"
        (([({ text := "hello", source := "a.pdf", page := 3, score := 95 } :
          RDoc Nat)]).enum.map (fun p => renderDoc natToString (p.1 + 1) p.2)) ∧
    ∀ d ∈ [({ text := "hello", source := "a.pdf", page := 3, score := 95 } : RDoc Nat)],
      d.source.data <:+:
        (formatContext natToString
          [({ text := "hello", source := "a.pdf", page := 3, score := 95 } : RDoc Nat)]).data ∧
      (natToString d.page).data <:+:
        (formatContext natToString
          [({ text := "hello", source := "a.pdf", page := 3, score := 95 } : RDoc Nat)]).data :=
  C8_formatContext_contains natToString
    [({ text := "hello", source := "a.pdf", page := 3, score := 95 } : RDoc Nat)] (by decide)

/-! ## C9: chunk-id sanitization -/

/-- C9: generateChunkId replaces every non-alphanumeric character of the
document name by an underscore and appends the chunk suffix and decimal index;
hence every character of a chunk id is alphanumeric or an underscore, and two
names that differ only in non-alphanumeric characters collide on the same
index. -/
theorem C9_generateChunkId_sanitizes :
    (∀ (name : String) (i : Nat),
      (generateChunkId name i).data =
        name.data.map (fun c => if c.isAlphanum then c else '_') ++
          ("_chunk_").data ++ (natToString i).data) ∧
    (∀ (name : String) (i : Nat), ∀ c ∈ (generateChunkId name i).data,
      c.isAlphanum = true ∨ c = '_') ∧
    (∀ (n₁ n₂ : String) (i : Nat), n₁.data.length = n₂.data.length →
      (∀ p ∈ n₁.data.zip n₂.data, p.1 = p.2 ∨ (p.1.isAlphanum = false ∧ p.2.isAlphanum = false)) →
      generateChunkId n₁ i = generateChunkId n₂ i) := by
  refine ⟨?_, ?_, ?_⟩
  · intro name i
    simp [generateChunkId, String.data_append]
  · intro name i c hc
    have hdata : (generateChunkId name i).data =
        name.data.map (fun c => if c.isAlphanum then c else '_') ++
          ("_chunk_").data ++ (natToString i).data := by
      simp [generateChunkId, String.data_append]
    rw [hdata] at hc
    rcases List.mem_append.mp hc with hc1 | hc2
    · rcases List.mem_append.mp hc1 with hc3 | hc4
      · rcases List.mem_map.mp hc3 with ⟨c0, _, rfl⟩
        by_cases hc0 : c0.isAlphanum
        · left
          simp [hc0]
        · right
          simp [hc0]
      · have h7 : ("_chunk_").data = ['_', 'c', 'h', 'u', 'n', 'k', '_'] := rfl
        rw [h7] at hc4
        simp only [List.mem_cons, List.not_mem_nil, or_false] at hc4
        rcases hc4 with rfl | rfl | rfl | rfl | rfl | rfl | rfl <;> decide
    · left
      exact isAlphanum_of_isDigit c (natToString_digits i c hc2)
  · intro n₁ n₂ i hlen hzip
    have hmap := sanitize_eq_of_zip hlen hzip
    unfold generateChunkId
    rw [hmap]

/-! ## C10: one vector per chunk, in order, with distinct ids -/

/-- C10: in a successful upload the upserted vector list has exactly one record
per chunk; the i-th record carries id dbId_chunk_i, chunkIndex i and the
database document id; ids are pairwise distinct; and the count equals the
totalChunks of the created registry row. The hypothesis is the embedding-client
contract: one embedding vector per chunk. -/
theorem C10_upload_one_vector_per_chunk (V : Type) (dbId userId documentName fileUrl nsp : String)
    (now : Nat) (chunks : List Chunk) (vectors : List V)
    (h : vectors.length = chunks.length) :
    (vectorsToUpsert dbId userId documentName chunks vectors).length = chunks.length ∧
    (∀ i (hi : i < (vectorsToUpsert dbId userId documentName chunks vectors).length),
      ((vectorsToUpsert dbId userId documentName chunks vectors).get ⟨i, hi⟩).id =
        dbId ++ "_chunk_" ++ natToString i ∧
      ((vectorsToUpsert dbId userId documentName chunks vectors).get ⟨i, hi⟩).chunkIndex = i ∧
      ((vectorsToUpsert dbId userId documentName chunks vectors).get ⟨i, hi⟩).documentId = dbId) ∧
    (vectorsToUpsert dbId userId documentName chunks vectors).Pairwise
      (fun a b => a.id ≠ b.id) ∧
    (uploadDbDocument dbId userId documentName fileUrl nsp now chunks).totalChunks =
      chunks.length := by
  have hid : ∀ i (hi : i < (vectorsToUpsert dbId userId documentName chunks vectors).length),
      ((vectorsToUpsert dbId userId documentName chunks vectors).get ⟨i, hi⟩).id =
        dbId ++ "_chunk_" ++ natToString i := by
    intro i hi
    simp [vectorsToUpsert, List.get_eq_getElem, List.getElem_map, List.getElem_enum]
  refine ⟨by simp [vectorsToUpsert, h], ?_, ?_, rfl⟩
  · intro i hi
    refine ⟨hid i hi, ?_, ?_⟩ <;>
      simp [vectorsToUpsert, List.get_eq_getElem, List.getElem_map, List.getElem_enum]
  · rw [List.pairwise_iff_get]
    intro i j hij heq
    rw [hid i.1 i.2, hid j.1 j.2] at heq
    have hdata := congrArg String.data heq
    simp only [String.data_append, List.append_assoc] at hdata
    have h1 := List.append_cancel_left hdata
    have h2 := List.append_cancel_left h1
    have : i.1 = j.1 := natDecimal_inj h2
    omega

/-- C10 witness: the theorem applied at a concrete two-chunk upload. -/
theorem C10_witness :
    (vectorsToUpsert ("row1") ("u1") ("doc.pdf") c10chunks c10vectors).length =
      c10chunks.length ∧
    (∀ i (hi : i < (vectorsToUpsert ("row1") ("u1") ("doc.pdf") c10chunks c10vectors).length),
      ((vectorsToUpsert ("row1") ("u1") ("doc.pdf") c10chunks c10vectors).get ⟨i, hi⟩).id =
        ("row1") ++ "_chunk_" ++ natToString i ∧
      ((vectorsToUpsert ("row1") ("u1") ("doc.pdf") c10chunks c10vectors).get ⟨i, hi⟩).chunkIndex
        = i ∧
      ((vectorsToUpsert ("row1") ("u1") ("doc.pdf") c10chunks c10vectors).get ⟨i, hi⟩).documentId
        = ("row1")) ∧
    (vectorsToUpsert ("row1") ("u1") ("doc.pdf") c10chunks c10vectors).Pairwise
      (fun a b => a.id ≠ b.id) ∧
    (uploadDbDocument ("row1") ("u1") ("doc.pdf") ("http://f") ("user_u1") 7 c10chunks).totalChunks
      = c10chunks.length :=
  C10_upload_one_vector_per_chunk Nat ("row1") ("u1") ("doc.pdf") ("http://f") ("user_u1") 7
    c10chunks c10vectors (by decide)

/-! ## C6: registry listing is ordered by uploadedAt descending -/

/-- C6: getAllDocuments returns the records matching the namespace and user
filters, sorted by uploadedAt in descending order: every record is at least as
recent as every later record, and the result is a permutation of the metadata
of exactly the matching rows. -/
theorem C6_getAllDocuments_sorted_desc (tbl : List DbDoc) (ns uid : Option String) :
    (getAllDocuments tbl ns uid).Pairwise (fun a b => b.uploadedAt ≤ a.uploadedAt) ∧
    (getAllDocuments tbl ns uid).Perm
      ((tbl.filter (matchesDocFilter ns uid)).map docToMetadata) := by
  constructor
  · unfold getAllDocuments findManyDocuments
    rw [List.pairwise_map]
    have hs := List.sorted_insertionSort byUploadedAtDesc (tbl.filter (matchesDocFilter ns uid))
    exact hs.imp (fun hab => hab)
  · unfold getAllDocuments findManyDocuments
    exact (List.perm_insertionSort byUploadedAtDesc (tbl.filter (matchesDocFilter ns uid))).map
      docToMetadata

/-! ## C4: registering the same documentId twice -/

theorem registerDocument_insert (tbl : List DbDoc) (m : DocumentMetadata) (u : String)
    (t : Nat) (r : String) (hne : m.documentId ≠ "")
    (h0 : ∀ d ∈ tbl, d.documentId ≠ m.documentId) :
    registerDocument tbl m u t r = tbl ++ [{
      id := r
      userId := u
      documentId := m.documentId
      fileName := m.fileName
      fileSize := m.totalSize.getD 0
      fileType := "pdf"
      totalChunks := m.totalChunks
      pages := m.pages
      storageUrl := ""
      ns := m.ns
      status := "completed"
      embeddingModel := m.embeddingModel
      keywords := m.keywords
      preview := m.preview
      processingTime := m.processingTime
      uploadedAt := m.uploadedAt
      vectorized := true }] := by
  have hb1 : (m.documentId == ("" : String)) = false := by
    rw [beq_eq_false_iff_ne]
    exact hne
  have hfind : tbl.find? (fun d => d.documentId == m.documentId) = none := by
    rw [List.find?_eq_none]
    intro x hx
    simp only [beq_iff_eq]
    exact h0 x hx
  simp [registerDocument, hb1, hfind]

theorem registerDocument_update (tbl : List DbDoc) (m : DocumentMetadata) (u : String)
    (t : Nat) (r : String) (hne : m.documentId ≠ "")
    (hfound : ∃ d ∈ tbl, d.documentId = m.documentId) :
    registerDocument tbl m u t r = tbl.map (fun d =>
      if d.documentId == m.documentId then
        { d with
          status := "completed"
          embeddingModel := prismaSetOpt m.embeddingModel d.embeddingModel
          keywords := m.keywords
          preview := prismaSetOpt m.preview d.preview
          processingTime := prismaSetOpt m.processingTime d.processingTime
          uploadedAt := m.uploadedAt }
      else d) := by
  have hb1 : (m.documentId == ("" : String)) = false := by
    rw [beq_eq_false_iff_ne]
    exact hne
  have hsome : (tbl.find? (fun d => d.documentId == m.documentId)).isSome := by
    rw [List.find?_isSome]
    rcases hfound with ⟨d, hd, hdid⟩
    exact ⟨d, hd, by simp [beq_iff_eq, hdid]⟩
  rcases Option.isSome_iff_exists.mp hsome with ⟨d0, hf⟩
  simp [registerDocument, hb1, hf]

/-- C4 counterexample: after two register calls with the same documentId and
totalChunks 3 then 5, the registry holds exactly one record for that id, but
its totalChunks is still 3 - not the value 5 from the later call as the claim
states. -/
theorem C4_counterexample :
    (c4tbl.filter (fun d => d.documentId == ("doc-1" : String))).length = 1 ∧
    ¬ (∀ d ∈ c4tbl, d.documentId = "doc-1" → d.totalChunks = 5) ∧
    (∀ d ∈ c4tbl, d.documentId = "doc-1" → d.totalChunks = 3) := by
  refine ⟨by decide, by decide, by decide⟩

/-- C4 amended: registering twice with the same (non-empty) documentId leaves
exactly one record for that id - in the raw table and in the getAllDocuments
listing - and the second call updates status (forced to completed), uploadedAt
and preview in place while preserving the totalChunks of the first call. -/
theorem C4_amended_register_twice (tbl : List DbDoc) (m m2 : DocumentMetadata)
    (u u2 : String) (t t2 : Nat) (r r2 : String)
    (hid : m2.documentId = m.documentId) (hne : m.documentId ≠ "")
    (h0 : ∀ d ∈ tbl, d.documentId ≠ m.documentId) :
    ((registerDocument (registerDocument tbl m u t r) m2 u2 t2 r2).filter
      (fun d => d.documentId == m.documentId)).length = 1 ∧
    ((getAllDocuments (registerDocument (registerDocument tbl m u t r) m2 u2 t2 r2)
        none none).filter (fun d => d.documentId == m.documentId)).length = 1 ∧
    (∀ d ∈ registerDocument (registerDocument tbl m u t r) m2 u2 t2 r2,
      d.documentId = m.documentId →
        d.totalChunks = m.totalChunks ∧ d.status = "completed" ∧
        d.uploadedAt = m2.uploadedAt ∧ d.preview = prismaSetOpt m2.preview m.preview) := by
  have hne2 : m2.documentId ≠ "" := by rw [hid]; exact hne
  obtain ⟨R, hR, hRid, hRchunks, hRpreview⟩ :
      ∃ R : DbDoc, registerDocument tbl m u t r = tbl ++ [R] ∧
        R.documentId = m.documentId ∧ R.totalChunks = m.totalChunks ∧
        R.preview = m.preview :=
    ⟨_, registerDocument_insert tbl m u t r hne h0, rfl, rfl, rfl⟩
  have hfound : ∃ d ∈ tbl ++ [R], d.documentId = m2.documentId :=
    ⟨R, by simp, by rw [hRid, hid]⟩
  have hupd := registerDocument_update (tbl ++ [R]) m2 u2 t2 r2 hne2 hfound
  rw [hR, hupd]
  set f : DbDoc → DbDoc := fun d =>
    if d.documentId == m2.documentId then
      { d with
        status := "completed"
        embeddingModel := prismaSetOpt m2.embeddingModel d.embeddingModel
        keywords := m2.keywords
        preview := prismaSetOpt m2.preview d.preview
        processingTime := prismaSetOpt m2.processingTime d.processingTime
        uploadedAt := m2.uploadedAt }
    else d with hf
  have hfix : ∀ d ∈ tbl, f d = d := by
    intro d hd
    rw [hf]
    simp only []
    rw [if_neg]
    simp only [beq_iff_eq, hid]
    exact h0 d hd
  have hfR : f R = { R with
      status := "completed"
      embeddingModel := prismaSetOpt m2.embeddingModel R.embeddingModel
      keywords := m2.keywords
      preview := prismaSetOpt m2.preview R.preview
      processingTime := prismaSetOpt m2.processingTime R.processingTime
      uploadedAt := m2.uploadedAt } := by
    rw [hf]
    simp only []
    rw [if_pos]
    simp only [beq_iff_eq, hid]
    exact hRid
  have hmap : (tbl ++ [R]).map f = tbl.map f ++ [f R] := by simp
  have hfilter : ((tbl ++ [R]).map f).filter (fun d => d.documentId == m.documentId) = [f R] := by
    rw [hmap, List.filter_append]
    have h1 : (tbl.map f).filter (fun d => d.documentId == m.documentId) = [] := by
      rw [List.filter_eq_nil_iff]
      intro a ha
      rcases List.mem_map.mp ha with ⟨d, hd, rfl⟩
      rw [hfix d hd]
      simp only [beq_iff_eq]
      exact h0 d hd
    have hcond : ((f R).documentId == m.documentId) = true := by
      rw [hfR]
      simp only [beq_iff_eq]
      exact hRid
    have h2 : ([f R]).filter (fun d => d.documentId == m.documentId) = [f R] := by
      rw [List.filter_singleton, hcond]
      rfl
    rw [h1, h2, List.nil_append]
  refine ⟨by rw [hfilter]; rfl, ?_, ?_⟩
  · unfold getAllDocuments findManyDocuments
    have hall : ((tbl ++ [R]).map f).filter (matchesDocFilter none none) = (tbl ++ [R]).map f :=
      List.filter_eq_self.mpr (fun a _ => rfl)
    rw [hall]
    have hperm := List.perm_insertionSort byUploadedAtDesc ((tbl ++ [R]).map f)
    rw [← List.countP_eq_length_filter]
    have hcmap : ∀ (l : List DbDoc),
        (l.map docToMetadata).countP (fun d => d.documentId == m.documentId) =
          l.countP (fun d => d.documentId == m.documentId) := by
      intro l
      rw [List.countP_map]
      rfl
    rw [hcmap, hperm.countP_eq, List.countP_eq_length_filter, hfilter]
    rfl
  · intro d hd hdid
    rw [hmap] at hd
    rcases List.mem_append.mp hd with h1 | h2
    · rcases List.mem_map.mp h1 with ⟨d0, hd0, rfl⟩
      rw [hfix d0 hd0] at hdid ⊢
      exact absurd hdid (h0 d0 hd0)
    · have hdR : d = f R := by simpa using h2
      subst hdR
      rw [hfR]
      have hprev : prismaSetOpt m2.preview R.preview = prismaSetOpt m2.preview m.preview := by
        rw [hRpreview]
      exact ⟨hRchunks, rfl, rfl, hprev⟩

/-- C4 witness: the amended theorem applied at the concrete two registrations
of the counterexample. -/
theorem C4_amended_witness :
    ((registerDocument (registerDocument [] c4meta1 ("u1") 100 ("row1")) c4meta2 ("u1") 200
        ("row2")).filter (fun d => d.documentId == c4meta1.documentId)).length = 1 ∧
    ((getAllDocuments (registerDocument (registerDocument [] c4meta1 ("u1") 100 ("row1")) c4meta2
        ("u1") 200 ("row2")) none none).filter
      (fun d => d.documentId == c4meta1.documentId)).length = 1 ∧
    (∀ d ∈ registerDocument (registerDocument [] c4meta1 ("u1") 100 ("row1")) c4meta2 ("u1") 200
        ("row2"),
      d.documentId = c4meta1.documentId →
        d.totalChunks = c4meta1.totalChunks ∧ d.status = "completed" ∧
        d.uploadedAt = c4meta2.uploadedAt ∧
        d.preview = prismaSetOpt c4meta2.preview c4meta1.preview) :=
  C4_amended_register_twice [] c4meta1 c4meta2 ("u1") ("u1") 100 200 ("row1") ("row2")
    (by decide) (by decide) (by intro d hd; simp at hd)

/-! ## Delete route: reduction lemmas -/

theorem deleteRoute_found (V : Type) (st : AppSt V) (docId userId : String)
    (vFail sFail legacyClear : Bool) (doc : DbDoc)
    (hf : st.documents.find? (fun d => d.id == docId) = some doc)
    (hu : (doc.userId != userId) = false) :
    deleteRoute st docId userId vFail sFail legacyClear =
      (let ns := getUserNamespace userId
       let st1 := if vFail then st
         else { st with pinecone := deleteVectorsForDocument st.pinecone docId ns }
       let st2 := { st1 with chunks := st1.chunks.filter (fun c => !(c.documentId == docId)) }
       let st3 := { st2 with documents := st2.documents.filter (fun d => !(d.id == docId)) }
       let st4 := if legacyClear then st3
         else { st3 with documents := clearRegistry st3.documents none none }
       (st4,
        [DelStep.vectorDelete docId ns vFail, DelStep.chunkDelete docId,
         DelStep.registryDelete docId, DelStep.clearRegistryCache, DelStep.resync ns sFail],
        200)) := by
  unfold deleteRoute
  rw [hf]
  simp [hu]

theorem deleteRoute_status_ok (V : Type) (st : AppSt V) (docId userId : String)
    (vFail sFail legacyClear : Bool)
    (hok : (deleteRoute st docId userId vFail sFail legacyClear).2.2 = 200) :
    ∃ doc, st.documents.find? (fun d => d.id == docId) = some doc ∧
      (doc.userId != userId) = false := by
  cases hf : st.documents.find? (fun d => d.id == docId) with
  | none =>
    unfold deleteRoute at hok
    rw [hf] at hok
    simp at hok
  | some doc =>
    by_cases hu : (doc.userId != userId) = true
    · unfold deleteRoute at hok
      rw [hf] at hok
      simp [hu] at hok
    · exact ⟨doc, rfl, by rwa [Bool.not_eq_true] at hu⟩

theorem mem_findManyDocuments {tbl : List DbDoc} {ns uid : Option String} {d : DbDoc}
    (h : d ∈ findManyDocuments tbl ns uid) : d ∈ tbl := by
  unfold findManyDocuments at h
  have hm := (List.perm_insertionSort byUploadedAtDesc
    (tbl.filter (matchesDocFilter ns uid))).mem_iff.mp h
  exact List.mem_of_mem_filter hm

/-! ## C2: order of registry deletion and vector deletion -/

/-- C2 counterexample: on the concrete state exSt the delete route emits the
vector-index deletion as step 0 and the registry deletion as step 2, so the
registry deletion does not precede the vector deletion. -/
theorem C2_counterexample :
    ¬ regPrecedesVec (deleteRoute exSt ("row1") ("u1") false false false).2.1 := by
  intro h
  have h20 := h 2 0 (by decide) (by decide) (by decide) (by decide)
  omega

/-- C2 amended: in every delete-route execution that reaches the deletion steps
(status 200), the vector-index deletion call is the first step of the trace and
the registry deletion the third - the vector deletion is attempted (and its
failure swallowed) before the registry row is removed, not after. -/
theorem C2_amended_vector_before_registry (V : Type) (st : AppSt V) (docId userId : String)
    (vFail sFail legacyClear : Bool)
    (hok : (deleteRoute st docId userId vFail sFail legacyClear).2.2 = 200) :
    (deleteRoute st docId userId vFail sFail legacyClear).2.1.findIdx? isVecDel = some 0 ∧
    (deleteRoute st docId userId vFail sFail legacyClear).2.1.findIdx? isRegDel = some 2 := by
  rcases deleteRoute_status_ok V st docId userId vFail sFail legacyClear hok with ⟨doc, hf, hu⟩
  rw [deleteRoute_found V st docId userId vFail sFail legacyClear doc hf hu]
  exact ⟨rfl, rfl⟩

/-- C2 witness: the amended theorem applied at the concrete state exSt. -/
theorem C2_amended_witness :
    (deleteRoute exSt ("row1") ("u1") false false false).2.1.findIdx? isVecDel = some 0 ∧
    (deleteRoute exSt ("row1") ("u1") false false false).2.1.findIdx? isRegDel = some 2 :=
  C2_amended_vector_before_registry Nat exSt ("row1") ("u1") false false false (by decide)

/-! ## C3: a completed delete never resurfaces in the listing -/

/-- C3: whenever the delete route completes with status 200 - in particular
also when the vector-index deletion call fails - the resulting registry state
never lists a row with the deleted id, for any namespace and user filter and
under either clearRegistry revision; and the completion status is the same
whether or not the vector deletion fails. -/
theorem C3_delete_then_list_clean (V : Type) (st : AppSt V) (docId userId : String)
    (vFail sFail legacyClear : Bool)
    (hok : (deleteRoute st docId userId vFail sFail legacyClear).2.2 = 200) :
    (∀ nsp uid, ∀ d ∈ findManyDocuments
        (deleteRoute st docId userId vFail sFail legacyClear).1.documents nsp uid,
      d.id ≠ docId) ∧
    (deleteRoute st docId userId true sFail legacyClear).2.2 =
      (deleteRoute st docId userId false sFail legacyClear).2.2 := by
  rcases deleteRoute_status_ok V st docId userId vFail sFail legacyClear hok with ⟨doc, hf, hu⟩
  constructor
  · intro nsp uid d hd
    rw [deleteRoute_found V st docId userId vFail sFail legacyClear doc hf hu] at hd
    have hd' := mem_findManyDocuments hd
    cases legacyClear with
    | true =>
      simp at hd'
      exact hd'.2
    | false =>
      simp [clearRegistry] at hd'
      exact hd'.2.2
  · rw [deleteRoute_found V st docId userId true sFail legacyClear doc hf hu,
      deleteRoute_found V st docId userId false sFail legacyClear doc hf hu]

/-- C3 witness: the theorem applied at the concrete state exSt with a failing
vector deletion. -/
theorem C3_witness :
    (∀ nsp uid, ∀ d ∈ findManyDocuments
        (deleteRoute exSt ("row1") ("u1") true false false).1.documents nsp uid,
      d.id ≠ ("row1" : String)) ∧
    (deleteRoute exSt ("row1") ("u1") true false false).2.2 =
      (deleteRoute exSt ("row1") ("u1") false false false).2.2 :=
  C3_delete_then_list_clean Nat exSt ("row1") ("u1") true false false (by decide)

/-! ## C1: history validation -/

/-- C1 counterexample: with two leading non-user turns the validated chat
history is neither empty nor user-first - the code drops only a single leading
non-user turn, so the second model turn stays in front. -/
theorem C1_counterexample :
    ¬ (chatHistory c1hist = [] ∨
      ((chatHistory c1hist).head?.map GTurn.role) = some ("user")) := by decide

theorem chatHistory_of_validated_nil (conversationHistory : List Turn)
    (hv : validatedHistory conversationHistory = []) :
    chatHistory conversationHistory = [] := by
  unfold chatHistory
  rw [hv]

theorem chatHistory_of_validated_cons (conversationHistory : List Turn) (m : GTurn)
    (rest : List GTurn) (hv : validatedHistory conversationHistory = m :: rest) :
    chatHistory conversationHistory = if m.role != "user" then rest else m :: rest := by
  unfold chatHistory
  rw [hv]

theorem mem_validatedHistory_props (conversationHistory : List Turn) (t : GTurn)
    (ht : t ∈ validatedHistory conversationHistory) :
    (t.role = "user" ∨ t.role = "model") ∧ strTrim t.text ≠ "" := by
  unfold validatedHistory at ht
  have h1 := List.mem_filter.mp ht
  constructor
  · rcases List.mem_map.mp h1.1 with ⟨msg, _, rfl⟩
    by_cases hr : (msg.role == ("user" : String)) = true
    · left
      simp [hr]
    · right
      simp [hr]
  · have h2 := h1.2
    simp only [Bool.and_eq_true, bne_iff_ne, ne_eq] at h2
    exact h2.2

/-- C1 amended: the validation filters out empty-content turns and maps every
role into user or model, but drops at most ONE leading non-user turn (a single
slice, not a loop); hence the result is empty or starts with a user turn
whenever the validated history has at most one leading non-user turn. -/
theorem C1_amended_history_validation (conversationHistory : List Turn)
    (hle : leadingNonUser (validatedHistory conversationHistory) ≤ 1) :
    (∀ t ∈ chatHistory conversationHistory,
      (t.role = "user" ∨ t.role = "model") ∧ strTrim t.text ≠ "") ∧
    (chatHistory conversationHistory = [] ∨
      ((chatHistory conversationHistory).head?.map GTurn.role) = some ("user")) := by
  have hsub : ∀ t ∈ chatHistory conversationHistory, t ∈ validatedHistory conversationHistory := by
    intro t ht
    unfold chatHistory at ht
    split at ht
    · simp at ht
    · next m rest heq =>
      rw [heq]
      split at ht
      · exact List.mem_cons_of_mem m ht
      · exact ht
  refine ⟨fun t ht => mem_validatedHistory_props conversationHistory t (hsub t ht), ?_⟩
  cases hv : validatedHistory conversationHistory with
  | nil =>
    left
    exact chatHistory_of_validated_nil conversationHistory hv
  | cons m rest =>
    rw [chatHistory_of_validated_cons conversationHistory m rest hv]
    by_cases hm : (m.role != "user") = true
    · simp only [hm, if_true]
      rw [hv] at hle
      unfold leadingNonUser at hle
      rw [List.takeWhile_cons, if_pos hm] at hle
      simp only [List.length_cons] at hle
      have hrest : (rest.takeWhile (fun t => t.role != "user")).length = 0 := by omega
      cases hr : rest with
      | nil =>
        left
        rfl
      | cons m2 rest2 =>
        right
        rw [hr] at hrest
        rw [List.takeWhile_cons] at hrest
        by_cases hm2 : (m2.role != "user") = true
        · rw [if_pos hm2] at hrest
          simp at hrest
        · have : m2.role = "user" := by
            rw [bne_iff_ne] at hm2
            simpa using hm2
          simp [this]
    · simp only [hm]
      right
      have : m.role = "user" := by
        rw [bne_iff_ne] at hm
        simpa using hm
      simp [this]

/-- C1 witness: the amended theorem applied at the spec example, a single
leading assistant turn followed by a user turn. -/
theorem C1_witness :
    (∀ t ∈ chatHistory [⟨"assistant", "hi"⟩, ⟨"user", "hello"⟩],
      (t.role = "user" ∨ t.role = "model") ∧ strTrim t.text ≠ "") ∧
    (chatHistory [⟨"assistant", "hi"⟩, ⟨"user", "hello"⟩] = [] ∨
      ((chatHistory [⟨"assistant", "hi"⟩, ⟨"user", "hello"⟩]).head?.map GTurn.role) =
        some ("user")) :=
  C1_amended_history_validation [⟨"assistant", "hi"⟩, ⟨"user", "hello"⟩] (by decide)

/-! ## C5: which stage errors propagate -/

/-- C5 counterexample: a failing catalog or stats fetch during generation does
not propagate - with both registry reads failing, generation still returns the
LLM answer, so the catalog-stage error is swallowed and generation continues
without a catalog. -/
theorem C5_counterexample :
    generateResponseE (α := Unit) ("q") ("ctx") [] [] (fun _ => "")
      (Except.error ("db down")) (Except.error ("db down"))
      (fun _ _ => Except.ok ("answer")) = Except.ok ("answer") ∧
    ∀ e : String,
      generateResponseE (α := Unit) ("q") ("ctx") [] [] (fun _ => "")
        (Except.error ("db down")) (Except.error ("db down"))
        (fun _ _ => Except.ok ("answer")) ≠ Except.error e := by
  constructor
  · rfl
  · intro e h
    have hcontra : (Except.ok ("answer") : Except String String) = Except.error e := h
    exact absurd hcontra (by simp)

/-- C5 amended: catalog-fetch failures during generation are swallowed -
generation with a failed registry read behaves exactly like generation over an
empty catalog - while LLM-generation failures and retrieval failures do
propagate to the caller unchanged. -/
theorem C5_amended_catalog_errors_swallowed (α : Type) (query context : String)
    (conversationHistory : List Turn) (retrievedDocs : List (RDoc α)) (fmtDate : Nat → String)
    (e : String) (statsE statsE2 : Except String Stats)
    (send : List GTurn → String → Except String String) :
    (generateResponseE query context conversationHistory retrievedDocs fmtDate
        (Except.error e) statsE send =
      generateResponseE query context conversationHistory retrievedDocs fmtDate
        (Except.ok []) statsE2 send) ∧
    (∀ (g : String) (catE : Except String (List DocumentMetadata))
      (stE : Except String Stats),
      generateResponseE query context conversationHistory retrievedDocs fmtDate catE stE
        (fun _ _ => Except.error g) = Except.error g) ∧
    (∀ (g : String) (catE : Except String (List DocumentMetadata))
      (stE : Except String Stats) (fmtScore : α → String),
      ragPipelineE query conversationHistory fmtScore fmtDate (Except.error g) catE stE send =
        Except.error g) := by
  refine ⟨?_, ?_, ?_⟩
  · cases statsE2 with
    | error e2 => rfl
    | ok s => rfl
  · intro g catE stE
    rfl
  · intro g catE stE fmtScore
    rfl

/-- C9 witness: the collision part of the theorem applied at two concrete names
that differ only in non-alphanumeric characters, and the character part at one
of them. -/
theorem C9_witness :
    generateChunkId ("a.b") 3 = generateChunkId ("a-b") 3 ∧
    (∀ c ∈ (generateChunkId ("a.b") 3).data, c.isAlphanum = true ∨ c = '_') :=
  ⟨C9_generateChunkId_sanitizes.2.2 ("a.b") ("a-b") 3 (by decide) (by decide),
   C9_generateChunkId_sanitizes.2.1 ("a.b") 3⟩
